/-
Verification development for the multilspy Solidity language-server wrapper.

Shallow embedding of:
  * `multilspy_config.py` — `Language`, `MultilspyConfig.from_dict`;
  * `solidity_language_server.py` — `setup_runtime_dependencies` (the
    bootstrap pipeline), the `start_server` handshake, the
    `publish_diagnostics` notification handler, and the shutdown block.

The filesystem and the external collaborators (archive fetcher, npm, the
compile command) are modelled abstractly: the filesystem is a record of
boolean query functions (mirroring `os.path.exists`, `os.path.isdir`,
`os.listdir(...)` non-emptiness), and each external side effect is an
oracle transforming the filesystem plus a recorded `Action`.  The Python
code only ever queries the filesystem through those three predicates, so
this captures exactly the information flow of the source.
-/
import Mathlib

namespace Multilspy

/-- Decidable equality for `Except`, so that concrete runs of the
fallible operations can be checked by `decide`. -/
instance {ε α : Type} [DecidableEq ε] [DecidableEq α] : DecidableEq (Except ε α) :=
  fun x y =>
    match x, y with
    | .ok a, .ok b =>
      if h : a = b then .isTrue (by rw [h]) else .isFalse (by simp [h])
    | .error a, .error b =>
      if h : a = b then .isTrue (by rw [h]) else .isFalse (by simp [h])
    | .ok _, .error _ => .isFalse (by simp)
    | .error _, .ok _ => .isFalse (by simp)

/-! ## `multilspy_config.py` -/

/-- The `Language` enum of `multilspy_config.py` (string-valued). -/
inductive Language
  | csharp | python | rust | java | kotlin | typescript
  | javascript | go | ruby | dart | cpp | solidity
deriving DecidableEq, Repr

/-- Lookup `Language(value)`: look a language up by its enum value string,
mirroring the `Language(value.lower())` constructor call (which raises
`ValueError` — here `none` — when no member has that value). -/
def Language.fromValue? (s : String) : Option Language :=
  match s with
  | "csharp" => some .csharp
  | "python" => some .python
  | "rust" => some .rust
  | "java" => some .java
  | "kotlin" => some .kotlin
  | "typescript" => some .typescript
  | "javascript" => some .javascript
  | "go" => some .go
  | "ruby" => some .ruby
  | "dart" => some .dart
  | "cpp" => some .cpp
  | "solidity" => some .solidity
  | _ => none

/-- Python `value.lower()` — ASCII lowercasing, character by character (the
enum values are all ASCII, so this matches Python's `str.lower` on
every input that can name a language). -/
def pyLower (s : String) : String :=
  String.mk (s.data.map Char.toLower)

/-- A dynamically-typed Python value as it can appear in the dictionary
passed to `MultilspyConfig.from_dict`. -/
inductive Value
  | str (s : String)
  | lang (l : Language)
  | boolV (b : Bool)
  | intV (n : Int)
deriving DecidableEq, Repr

/-- A printable name for the runtime type of a `Value`, standing in for
Python's `type(value)` in the `TypeError` message. -/
def Value.typeName : Value → String
  | .str _ => "str"
  | .lang _ => "Language"
  | .boolV _ => "bool"
  | .intV _ => "int"

/-- The dictionary argument of `from_dict`: an association list of
key/value pairs (first binding of a key wins, as in a Python dict there
is at most one). -/
structure Env where
  entries : List (String × Value)

/-- Dictionary lookup `env[key]`, `none` when the key is absent. -/
def Env.get? (env : Env) (k : String) : Option Value :=
  (env.entries.find? (fun e => e.1 == k)).map (·.2)

/-- Errors raised by `MultilspyConfig.from_dict`.  `missingRequired`
models the `TypeError` Python raises at `cls(**kwargs)` when
`code_language` is absent from the dictionary. -/
inductive ConfigError
  | valueError (language : String)
  | typeError (received : String)
  | missingRequired (key : String)
deriving DecidableEq, Repr

/-- The `MultilspyConfig` dataclass.  `code_language` is converted and
validated by `from_dict`; the two remaining parameters are passed
through unvalidated (Python dataclasses do not enforce field types), so
they are kept as raw `Value`s with the dataclass defaults. -/
structure MultilspyConfig where
  code_language : Language
  trace_lsp_communication : Value := .boolV false
  start_independent_lsp_process : Value := .boolV true
deriving DecidableEq, Repr

/-- Model of `MultilspyConfig.from_dict(env)`: iterate over the constructor
parameters (`code_language`, `trace_lsp_communication`,
`start_independent_lsp_process`), taking a value from `env` when the key
is present and skipping it otherwise — keys of `env` that are not
parameters are never consulted.  `code_language` given as a `str` is
lowercased and converted through the `Language` enum (`ValueError` when
no member matches); a non-`str`, non-`Language` value is a `TypeError`;
a `Language` value is kept as is. -/
def MultilspyConfig.from_dict (env : Env) : Except ConfigError MultilspyConfig :=
  let cl : Except ConfigError (Option Language) :=
    match env.get? "code_language" with
    | none => .ok none
    | some (.str s) =>
      match Language.fromValue? (pyLower s) with
      | some l => .ok (some l)
      | none => .error (.valueError s)
    | some (.lang l) => .ok (some l)
    | some v => .error (.typeError v.typeName)
  match cl with
  | .error e => .error e
  | .ok none => .error (.missingRequired "code_language")
  | .ok (some l) =>
    .ok { code_language := l
        , trace_lsp_communication := (env.get? "trace_lsp_communication").getD (.boolV false)
        , start_independent_lsp_process :=
            (env.get? "start_independent_lsp_process").getD (.boolV true) }

/-! ## Bootstrap pipeline (`setup_runtime_dependencies`) -/

/-- The filesystem as the bootstrap queries it: `os.path.exists`,
`os.path.isdir`, and whether `os.listdir` of a path is non-empty. -/
structure FS where
  pathExists : String → Bool
  isDir : String → Bool
  listNonEmpty : String → Bool

/-- Model of `os.path.join(a, b)` for the relative-path arguments the source
passes (none is absolute, so joining is plain concatenation with a
separator). -/
def joinPath (a b : String) : String := a ++ "/" ++ b

/-- Model of `os.path.join(a, *parts)`. -/
def joinParts (a : String) (parts : List String) : String :=
  parts.foldl joinPath a

/-- One entry of `runtimeDependencies` in the catalog JSON, with the
defaults the source applies via `.get`. -/
structure Descriptor where
  platformId : String
  url : String
  archiveType : String
  relative_extraction_path : String
  serverScript : String
  legacyRelativeExtractionPaths : List String := []
  npmInstallDirs : List String := []
  compileCommand : Option String := none
  compileWorkingDirectory : String := "."
deriving DecidableEq, Repr

/-- External side effects of the bootstrap (each is an external process
spawn or a download performed by a collaborator).  `os.makedirs` of the
cache directory is an idempotent local filesystem call, not an external
action, and is not recorded. -/
inductive Action
  | download (url : String) (dest : String) (archiveType : String)
  | npmInstall (dir : String)
  | compile (cmd : String) (dir : String)
deriving DecidableEq, Repr

/-- The failure taxonomy of the bootstrap, one constructor per `raise`
site of `setup_runtime_dependencies` (all are `RuntimeError` or
`FileNotFoundError` in Python; the constructor records the path or
command context the message carries). -/
inductive SetupError
  | nodeMissing
  | npmMissing
  | unsupportedPlatform (pid : String)
  | noRuntimeDependency (pid : String)
  | missingExtraction (path : String)
  | missingInstallDir (path : String)
  | installFailed (path : String)
  | missingCompileDir (path : String)
  | compileFailed (path : String)
  | entryPointNotFound (path : String)
deriving DecidableEq, Repr

/-- The world the bootstrap runs in: which executables `shutil.which`
finds, the initial filesystem, and oracles for the effect and success of
each external collaborator (download-and-extract, `npm install` in a
directory, the compile command). -/
structure World where
  nodePath : Option String
  npmPath : Option String
  fs0 : FS
  afterDownload : FS → FS
  afterInstall : String → FS → FS
  afterCompile : FS → FS
  installOk : String → Bool
  compileOk : Bool

/-- Split a character list at every occurrence of the separator,
keeping empty segments — the semantics of Python's `str.split(sep)`
for a one-character separator. -/
def splitChars (sep : Char) : List Char → List (List Char)
  | [] => [[]]
  | c :: cs =>
    if c = sep then
      [] :: splitChars sep cs
    else
      match splitChars sep cs with
      | [] => [[c]]
      | seg :: segs => (c :: seg) :: segs

/-- Model of `server_script_relative_path.split("/")`. -/
def splitSlash (s : String) : List String :=
  (splitChars '/' s.data).map String.mk

/-- The candidate relative extraction paths, in the order the source
builds them: `[dependency["relative_extraction_path"], *legacy_relative_paths]`. -/
def candidatePaths (dep : Descriptor) : List String :=
  dep.relative_extraction_path :: dep.legacyRelativeExtractionPaths

/-- The server-script path resolved under the extraction directory for
candidate relative path `rel`. -/
def scriptAt (base : String) (dep : Descriptor) (rel : String) : String :=
  joinParts (joinPath base rel) (splitSlash dep.serverScript)

/-- Model of `resolve_paths()`: walk the candidate list and return the first
`(extraction_path, server_script_path)` whose script exists on disk;
when none exists, return the pair for the primary
`relative_extraction_path`. -/
def resolve_paths (base : String) (dep : Descriptor) (fs : FS) : String × String :=
  match (candidatePaths dep).find? (fun rel => fs.pathExists (scriptAt base dep rel)) with
  | some rel => (joinPath base rel, scriptAt base dep rel)
  | none => (joinPath base dep.relative_extraction_path,
             scriptAt base dep dep.relative_extraction_path)

/-- The download step of the bootstrap (source lines 125–138): resolve
paths; if the resolved script is missing, download-and-extract the
archive when the primary extraction directory is also missing (when the
directory exists but the script is missing, only a warning is logged),
then resolve paths again.  Returns the filesystem afterwards, the
recorded actions, and the resolved `(extraction_path, server_script_path)`. -/
def downloadPhase (w : World) (dep : Descriptor) (base : String) :
    FS × List Action × String × String :=
  let primary := joinPath base dep.relative_extraction_path
  let r := resolve_paths base dep w.fs0
  if w.fs0.pathExists r.2 then
    (w.fs0, [], r.1, r.2)
  else
    let step : FS × List Action :=
      if w.fs0.pathExists primary then
        (w.fs0, [])
      else
        (w.afterDownload w.fs0, [Action.download dep.url base dep.archiveType])
    let r2 := resolve_paths base dep step.1
    (step.1, step.2, r2.1, r2.2)

/-- The npm-install loop (source lines 143–158): for each relative
directory, resolve it against the chosen extraction path; a missing
directory is fatal; when its `node_modules` subfolder is absent or
empty, run `npm install` there (the spawn is recorded even when it
fails) and a non-zero exit is fatal; otherwise skip the directory. -/
def installLoop (w : World) (ep : String) (dirs : List String) (fs : FS) :
    Except SetupError FS × List Action :=
  match dirs with
  | [] => (.ok fs, [])
  | d :: rest =>
    let installPath := joinPath ep d
    let nodeModules := joinPath installPath "node_modules"
    if fs.isDir installPath then
      if !fs.pathExists nodeModules || !fs.listNonEmpty nodeModules then
        if w.installOk installPath then
          let res := installLoop w ep rest (w.afterInstall installPath fs)
          (res.1, Action.npmInstall installPath :: res.2)
        else
          (.error (.installFailed installPath), [Action.npmInstall installPath])
      else
        installLoop w ep rest fs
    else
      (.error (.missingInstallDir installPath), [])

/-- The compile step (source lines 160–173): when the script still does
not exist and `compileCommand` is set (non-`None` and non-empty, Python
truthiness), run it in `compileWorkingDirectory` resolved against the
extraction path; a missing working directory is fatal, as is a non-zero
exit (the spawn is recorded even when it fails). -/
def compilePhase (w : World) (dep : Descriptor) (ep sp : String) (fs : FS) :
    Except SetupError FS × List Action :=
  if fs.pathExists sp then
    (.ok fs, [])
  else
    match dep.compileCommand with
    | none => (.ok fs, [])
    | some cmd =>
      if cmd = "" then
        (.ok fs, [])
      else
        let compilePath := joinPath ep dep.compileWorkingDirectory
        if fs.isDir compilePath then
          if w.compileOk then
            (.ok (w.afterCompile fs), [Action.compile cmd compilePath])
          else
            (.error (.compileFailed compilePath), [Action.compile cmd compilePath])
        else
          (.error (.missingCompileDir compilePath), [])

/-- The final existence check and the returned command line (source
lines 175–185): fail when the script is still missing, else return
`"<node>" "<script>" --stdio` with both paths quoted. -/
def finalizeLaunch (node sp : String) (fs : FS) : Except SetupError String :=
  if fs.pathExists sp then
    .ok ("\"" ++ node ++ "\"" ++ " " ++ "\"" ++ sp ++ "\"" ++ " --stdio")
  else
    .error (.entryPointNotFound sp)

/-- Spec name `ensureInstalled` — the per-descriptor body of
`setup_runtime_dependencies` (source lines 57–185 after the platform
lookup): check `node` and `npm` are on `PATH`, run the download phase,
require the chosen extraction directory to exist, run the npm-install
loop, the compile phase, and the final check, accumulating the external
actions in order. -/
def setupMain (w : World) (dep : Descriptor) (base : String) :
    Except SetupError String × List Action :=
  match w.nodePath with
  | none => (.error .nodeMissing, [])
  | some node =>
    match w.npmPath with
    | none => (.error .npmMissing, [])
    | some _npm =>
      let d := downloadPhase w dep base
      let fs1 := d.1
      let acts1 := d.2.1
      let ep := d.2.2.1
      let sp := d.2.2.2
      if fs1.pathExists ep then
        match installLoop w ep dep.npmInstallDirs fs1 with
        | (.error e, acts2) => (.error e, acts1 ++ acts2)
        | (.ok fs2, acts2) =>
          match compilePhase w dep ep sp fs2 with
          | (.error e, acts3) => (.error e, acts1 ++ acts2 ++ acts3)
          | (.ok fs3, acts3) =>
            (finalizeLaunch node sp fs3, acts1 ++ acts2 ++ acts3)
      else
        (.error (.missingExtraction ep), acts1)

/-- The platform-resolution step over the loaded catalog (source lines
72–81): fail `UnsupportedPlatform` when no descriptor's `platformId`
equals the platform id, else return the first descriptor whose
`platformId` matches (`next(...)`), with the defensive `None` branch.
This is a pure function: it records no `Action` and touches no state. -/
def resolveDependency (catalog : List Descriptor) (pid : String) :
    Except SetupError Descriptor :=
  if pid ∈ catalog.map (·.platformId) then
    match catalog.find? (fun dep => dep.platformId == pid) with
    | some dep => .ok dep
    | none => .error (.noRuntimeDependency pid)
  else
    .error (.unsupportedPlatform pid)

/-- The whole of `setup_runtime_dependencies`: resolve the platform's
descriptor from the catalog, then run the per-descriptor pipeline. -/
def setup_runtime_dependencies (w : World) (catalog : List Descriptor)
    (pid : String) (base : String) : Except SetupError String × List Action :=
  match resolveDependency catalog pid with
  | .error e => (.error e, [])
  | .ok dep => setupMain w dep base

/-! ## Handshake (`start_server`, source lines 330–351) -/

/-- The server's response to the `initialize` request, abstracted to its
set of top-level fields (the handshake only tests membership of
`"capabilities"`). -/
structure InitResponse where
  fields : List String
deriving DecidableEq, Repr

/-- Observable events of the handshake tail.  `sentInitNote` is the
`initialized` notification (`self.server.notify.initialized({})`);
`openedReadyGate` is `self.completions_available.set()`;
`closedReadyGate` would be a `.clear()` of the gate — the code contains
no such call, so the handshake can never emit it. -/
inductive HsEvent
  | sentInitNote
  | openedReadyGate
  | closedReadyGate
deriving DecidableEq, Repr

/-- The handshake failure: the `RuntimeError("Invalid initialize
response ...")` raised when `"capabilities"` is absent from the
response. -/
inductive HsError
  | protocolViolation
deriving DecidableEq, Repr

/-- The tail of `start_server` after the `initialize` response arrives
(source lines 341–349): require a `capabilities` field — absence is a
protocol violation — then send the `initialized` notification and open
the readiness gate, in that order. -/
def handshakeAfterInit (resp : InitResponse) : Except HsError (List HsEvent) :=
  if resp.fields.contains "capabilities" then
    .ok [HsEvent.sentInitNote, HsEvent.openedReadyGate]
  else
    .error HsError.protocolViolation

/-! ## Diagnostics handler (`publish_diagnostics`, source lines 312–324) -/

/-- One entry of the `diagnostics` array, keeping exactly the fields the
handler reads, each optional with the handler's `.get` default. -/
structure Diag where
  message : Option String := none
  severity : Option Nat := none
  line : Option Nat := none
deriving DecidableEq, Repr

/-- A line the handler writes to the logger. -/
inductive LogEntry
  | countLine (uri : String) (n : Nat)
  | detailLine (line : String) (severityName : String) (message : String)
deriving DecidableEq, Repr

/-- The severity-name table `['Error', 'Warning', 'Info', 'Hint']`. -/
def severityNames : List String := ["Error", "Warning", "Info", "Hint"]

/-- The rendering of one diagnostic (loop body, source lines 320–324):
defaults `'Unknown diagnostic'`, severity `1`, line `'?'`; the severity
name is `severityNames[min(severity, 3)]` (the index is always `< 4`
for a natural-number severity, so the `getD` default is unreachable). -/
def renderDiag (d : Diag) : LogEntry :=
  let message := d.message.getD "Unknown diagnostic"
  let severity := d.severity.getD 1
  let severityName := severityNames.getD (min severity 3) ""
  let line := match d.line with
    | some n => toString n
    | none => "?"
  .detailLine line severityName message

/-- The body of `publish_diagnostics` for a well-formed payload: when
the diagnostics list is non-empty (`if diagnostics:`), log the count for
the URI and then the rendering of the first 5 entries; when it is
empty, log nothing. -/
def publish_diagnostics (uri : String) (diagnostics : List Diag) : List LogEntry :=
  if diagnostics.isEmpty then
    []
  else
    LogEntry.countLine uri diagnostics.length :: (diagnostics.take 5).map renderDiag

/-- The full handler including the well-formedness guard
(`isinstance(params, dict) and 'uri' in params and 'diagnostics' in
params`): a malformed payload logs nothing. -/
def publish_diagnostics_handler (params : Option (String × List Diag)) : List LogEntry :=
  match params with
  | none => []
  | some (uri, diagnostics) => publish_diagnostics uri diagnostics

/-! ## Shutdown (`start_server` teardown, source lines 353–358) -/

/-- Value of the `timeout=5` argument of `asyncio.wait_for`. -/
def shutdownTimeout : Nat := 5

/-- How the server's `shutdown()` coroutine behaves: it resolves after
`t` time units, never resolves, or raises some other exception. -/
inductive ShutdownBehavior
  | completesWithin (t : Nat)
  | hangs
  | raises (e : String)
deriving DecidableEq, Repr

/-- The outcome of `asyncio.wait_for(self.server.shutdown(), timeout=5)`:
normal return when the coroutine resolves within the deadline,
`TimeoutError` when it does not resolve by the deadline, and any other
exception passes through. -/
inductive WaitOutcome
  | ok
  | timedOut
  | raised (e : String)
deriving DecidableEq, Repr

/-- The race of `shutdown()` against the 5-time-unit deadline. -/
def waitForShutdown (b : ShutdownBehavior) : WaitOutcome :=
  match b with
  | .completesWithin t => if t ≤ shutdownTimeout then .ok else .timedOut
  | .hangs => .timedOut
  | .raises e => .raised e

/-- What the teardown block is observed to do. -/
structure TeardownTrace where
  warnedTimeout : Bool
  stopRan : Bool
  propagated : Option String
deriving DecidableEq, Repr

/-- The teardown block — `try: await asyncio.wait_for(self.server.shutdown(),
timeout=5) / except asyncio.TimeoutError: log warning / finally: await
self.server.stop()`: only `TimeoutError` is caught (and logged as a
warning, never re-raised); any other exception propagates; the
`finally` clause runs `server.stop` on every path. -/
def teardown (b : ShutdownBehavior) : TeardownTrace :=
  match waitForShutdown b with
  | .ok => { warnedTimeout := false, stopRan := true, propagated := none }
  | .timedOut => { warnedTimeout := true, stopRan := true, propagated := none }
  | .raised e => { warnedTimeout := false, stopRan := true, propagated := some e }

/-! ## Concrete inputs used by the closed checks below -/

/-- A descriptor with one package-install directory and no legacy
paths. -/
def depPrimary : Descriptor :=
  { platformId := "linux-x64", url := "https:example/sol.zip", archiveType := "zip"
  , relative_extraction_path := "ext", serverScript := "out/server.js"
  , npmInstallDirs := ["pkg"] }

/-- A filesystem where the server script already exists under the
primary extraction path but `pkg/node_modules` is absent. -/
def fsScriptNoModules : FS :=
  { pathExists := fun p => p ∈ ["B/ext", "B/ext/out", "B/ext/out/server.js", "B/ext/pkg"]
  , isDir := fun p => p ∈ ["B/ext", "B/ext/pkg"]
  , listNonEmpty := fun _ => false }

/-- A filesystem where the install tree is complete: script present and
`pkg/node_modules` present and non-empty. -/
def fsComplete : FS :=
  { pathExists := fun p =>
      p ∈ ["B/ext", "B/ext/out", "B/ext/out/server.js", "B/ext/pkg",
           "B/ext/pkg/node_modules"]
  , isDir := fun p => p ∈ ["B/ext", "B/ext/pkg"]
  , listNonEmpty := fun p => p == "B/ext/pkg/node_modules" }

/-- Wrap a filesystem into a world where `node` and `npm` are on `PATH`
and every external collaborator succeeds without changing the
filesystem (the oracles are irrelevant whenever no action runs). -/
def mkWorld (fs : FS) : World :=
  { nodePath := some "node", npmPath := some "npm", fs0 := fs
  , afterDownload := id, afterInstall := fun _ fsx => fsx, afterCompile := id
  , installOk := fun _ => true, compileOk := true }

/-- A descriptor whose script lives under a legacy extraction path. -/
def depLegacy : Descriptor :=
  { platformId := "linux-x64", url := "https:example/sol.zip", archiveType := "zip"
  , relative_extraction_path := "ext", serverScript := "out/server.js"
  , legacyRelativeExtractionPaths := ["legacy"]
  , npmInstallDirs := ["pkg"] }

/-- A filesystem where the script exists only under the legacy path and
the legacy `pkg/node_modules` is absent. -/
def fsLegacyNoModules : FS :=
  { pathExists := fun p =>
      p ∈ ["B/legacy", "B/legacy/out", "B/legacy/out/server.js", "B/legacy/pkg"]
  , isDir := fun p => p ∈ ["B/legacy", "B/legacy/pkg"]
  , listNonEmpty := fun _ => false }

/-- A filesystem where the script exists only under the legacy path and
the legacy install tree is complete. -/
def fsLegacyComplete : FS :=
  { pathExists := fun p =>
      p ∈ ["B/legacy", "B/legacy/out", "B/legacy/out/server.js", "B/legacy/pkg",
           "B/legacy/pkg/node_modules"]
  , isDir := fun p => p ∈ ["B/legacy", "B/legacy/pkg"]
  , listNonEmpty := fun p => p == "B/legacy/pkg/node_modules" }

/-- An empty filesystem (cold cache). -/
def fsCold : FS :=
  { pathExists := fun _ => false, isDir := fun _ => false
  , listNonEmpty := fun _ => false }

/-- A two-descriptor catalog. -/
def catalogTwo : List Descriptor :=
  [depPrimary,
   { depPrimary with platformId := "win32-x64", relative_extraction_path := "extwin" }]

/-- A descriptor with a compile command and no install directories. -/
def depCompile : Descriptor :=
  { platformId := "linux-x64", url := "https:example/sol.zip", archiveType := "zip"
  , relative_extraction_path := "ext", serverScript := "out/server.js"
  , compileCommand := some "npm run build" }

/-- Seven default diagnostics. -/
def sevenDiags : List Diag := List.replicate 7 {}

/-- A `from_dict` argument with an unrecognized key, an upper-case
language string, and a pass-through boolean. -/
def envMixed : Env :=
  ⟨[("extra", .intV 3), ("code_language", .str "JAVA"),
    ("trace_lsp_communication", .boolV true)]⟩

/-! ## Helper lemmas -/

/-- The severity name picked by `renderDiag` is always one of the four
table entries: the index `min s 3` is below the table length. -/
theorem severityNames_getD_mem (s : Nat) :
    severityNames.getD (min s 3) "" ∈ severityNames := by
  have h : min s 3 ≤ 3 := Nat.min_le_right s 3
  rcases hm : min s 3 with _ | _ | _ | _ | n
  · decide
  · decide
  · decide
  · decide
  · rw [hm] at h; omega

/-- Cons-step of dictionary lookup for a different key. -/
theorem Env.get?_cons_ne (k key : String) (v : Value) (es : List (String × Value))
    (h : k ≠ key) : Env.get? ⟨(k, v) :: es⟩ key = Env.get? ⟨es⟩ key := by
  unfold Env.get?
  rw [List.find?_cons_of_neg]
  simp [h]

/-- A loop over package-install directories that are all present with a
populated `node_modules` performs no install and leaves the filesystem
untouched. -/
theorem installLoop_complete (w : World) (ep : String) (dirs : List String) (fs : FS)
    (h : ∀ d ∈ dirs, fs.isDir (joinPath ep d) = true
      ∧ fs.pathExists (joinPath (joinPath ep d) "node_modules") = true
      ∧ fs.listNonEmpty (joinPath (joinPath ep d) "node_modules") = true) :
    installLoop w ep dirs fs = (.ok fs, []) := by
  induction dirs with
  | nil => rfl
  | cons d rest ih =>
    obtain ⟨h1, h2, h3⟩ := h d (List.mem_cons_self d rest)
    have hrest := fun x hx => h x (List.mem_cons_of_mem d hx)
    simp only [installLoop, h1, h2, h3]
    simpa using ih hrest

/-- Every action recorded by the install loop is an npm install. -/
theorem installLoop_actions (w : World) (ep : String) (dirs : List String) (fs : FS) :
    ∀ a ∈ (installLoop w ep dirs fs).2, ∃ p, a = Action.npmInstall p := by
  induction dirs generalizing fs with
  | nil => intro a ha; simp [installLoop] at ha
  | cons d rest ih =>
    intro a ha
    cases h1 : fs.isDir (joinPath ep d) with
    | false => simp [installLoop, h1] at ha
    | true =>
      cases h2 : (!fs.pathExists (joinPath (joinPath ep d) "node_modules")
          || !fs.listNonEmpty (joinPath (joinPath ep d) "node_modules")) with
      | false =>
        simp only [installLoop, h1, h2] at ha
        simp only [Bool.false_eq_true, if_false, if_true] at ha
        exact ih _ a ha
      | true =>
        cases h3 : w.installOk (joinPath ep d) with
        | false =>
          simp only [installLoop, h1, h2, h3] at ha
          simp only [Bool.false_eq_true, if_false, if_true, List.mem_singleton] at ha
          exact ⟨joinPath ep d, ha⟩
        | true =>
          simp only [installLoop, h1, h2, h3, if_true, List.mem_cons] at ha
          rcases ha with ha | ha
          · exact ⟨joinPath ep d, ha⟩
          · exact ih _ a ha

/-- Every action recorded by the compile step is a compile command. -/
theorem compilePhase_actions (w : World) (dep : Descriptor) (ep sp : String) (fs : FS) :
    ∀ a ∈ (compilePhase w dep ep sp fs).2, ∃ c p, a = Action.compile c p := by
  intro a ha
  cases h1 : fs.pathExists sp with
  | true => simp [compilePhase, h1] at ha
  | false =>
    rcases hc : dep.compileCommand with _ | cmd
    · simp [compilePhase, h1, hc] at ha
    · by_cases he : cmd = ""
      · simp [compilePhase, h1, hc, he] at ha
      · cases h2 : fs.isDir (joinPath ep dep.compileWorkingDirectory) with
        | false => simp [compilePhase, h1, hc, he, h2] at ha
        | true =>
          cases h3 : w.compileOk with
          | true =>
            simp [compilePhase, h1, hc, he, h2, h3] at ha
            exact ⟨cmd, joinPath ep dep.compileWorkingDirectory, ha⟩
          | false =>
            simp [compilePhase, h1, hc, he, h2, h3] at ha
            exact ⟨cmd, joinPath ep dep.compileWorkingDirectory, ha⟩

/-- The script path returned by `resolve_paths` exists on disk exactly
when some candidate's script exists on disk. -/
theorem resolve_paths_script_exists (base : String) (dep : Descriptor) (fs : FS) :
    fs.pathExists (resolve_paths base dep fs).2 = true ↔
      ∃ rel ∈ candidatePaths dep, fs.pathExists (scriptAt base dep rel) = true := by
  rcases hf : (candidatePaths dep).find?
      (fun rel => fs.pathExists (scriptAt base dep rel)) with _ | rel
  · simp only [resolve_paths, hf]
    constructor
    · intro h
      exact absurd h (by
        simpa using (List.find?_eq_none.mp hf) dep.relative_extraction_path
          (by simp [candidatePaths]))
    · rintro ⟨rel, hmem, hrel⟩
      exact absurd hrel (by simpa using (List.find?_eq_none.mp hf) rel hmem)
  · simp only [resolve_paths, hf]
    have hrel := List.find?_some hf
    constructor
    · intro _
      exact ⟨rel, List.mem_of_find?_eq_some hf, by simpa using hrel⟩
    · intro _
      simpa using hrel

/-- Generic first-hit characterization of `List.find?`: if position `i`
holds a satisfying element and all earlier positions do not satisfy the
predicate, `find?` returns that element. -/
theorem find?_first_hit {α : Type} (p : α → Bool) (l : List α) (i : Nat) (a : α)
    (hget : l[i]? = some a) (hp : p a = true)
    (hbefore : ∀ j, j < i → ∀ b, l[j]? = some b → p b = false) :
    l.find? p = some a := by
  induction l generalizing i with
  | nil => simp at hget
  | cons x xs ih =>
    cases i with
    | zero =>
      simp only [List.getElem?_cons_zero, Option.some.injEq] at hget
      subst hget
      simp [List.find?_cons_of_pos, hp]
    | succ n =>
      have hx : p x = false := hbefore 0 (Nat.succ_pos n) x (by simp)
      rw [List.find?_cons_of_neg xs (by simp [hx] : ¬ p x = true)]
      exact ih n (by simpa using hget)
        (fun j hj b hb => hbefore (j + 1) (Nat.succ_lt_succ hj) b (by simpa using hb))

/-- `resolve_paths` picks the first candidate (in list order) whose
script exists. -/
theorem resolve_paths_first_hit (base : String) (dep : Descriptor) (fs : FS)
    (i : Nat) (rel : String)
    (hget : (candidatePaths dep)[i]? = some rel)
    (hhit : fs.pathExists (scriptAt base dep rel) = true)
    (hbefore : ∀ j, j < i → ∀ r, (candidatePaths dep)[j]? = some r →
        fs.pathExists (scriptAt base dep r) = false) :
    resolve_paths base dep fs = (joinPath base rel, scriptAt base dep rel) := by
  unfold resolve_paths
  rw [find?_first_hit (fun r => fs.pathExists (scriptAt base dep r))
    (candidatePaths dep) i rel hget hhit hbefore]

/-- On a complete install tree — resolved script present, its extraction
directory present, every package-install directory present with a
populated `node_modules` — the pipeline performs no external action and
returns the launch command line built from the resolved script. -/
theorem setupMain_complete (w : World) (dep : Descriptor) (base node npm ep sp : String)
    (hnode : w.nodePath = some node) (hnpm : w.npmPath = some npm)
    (hres : resolve_paths base dep w.fs0 = (ep, sp))
    (hsp : w.fs0.pathExists sp = true)
    (hep : w.fs0.pathExists ep = true)
    (hdirs : ∀ d ∈ dep.npmInstallDirs, w.fs0.isDir (joinPath ep d) = true
      ∧ w.fs0.pathExists (joinPath (joinPath ep d) "node_modules") = true
      ∧ w.fs0.listNonEmpty (joinPath (joinPath ep d) "node_modules") = true) :
    setupMain w dep base =
      (.ok ("\"" ++ node ++ "\"" ++ " " ++ "\"" ++ sp ++ "\"" ++ " --stdio"), []) := by
  have hdp : downloadPhase w dep base = (w.fs0, [], ep, sp) := by
    simp only [downloadPhase]
    rw [hres]
    simp [hsp]
  simp only [setupMain, hnode, hnpm, hdp]
  rw [installLoop_complete w ep dep.npmInstallDirs w.fs0 hdirs]
  simp [hep, compilePhase, hsp, finalizeLaunch]

/-- Characterization of the actions recorded by the download step. -/
theorem downloadPhase_chars (w : World) (dep : Descriptor) (base : String) :
    (downloadPhase w dep base).2.1 =
      if w.fs0.pathExists (resolve_paths base dep w.fs0).2 then []
      else if w.fs0.pathExists (joinPath base dep.relative_extraction_path) then []
      else [Action.download dep.url base dep.archiveType] := by
  cases h1 : w.fs0.pathExists (resolve_paths base dep w.fs0).2 <;>
    cases h2 : w.fs0.pathExists (joinPath base dep.relative_extraction_path) <;>
      simp [downloadPhase, h1, h2]

/-- Whatever the pipeline does after the download step, the total action
list is the download step's actions followed by actions that are never
downloads. -/
theorem setupMain_actions_split (w : World) (dep : Descriptor) (base node npm : String)
    (hnode : w.nodePath = some node) (hnpm : w.npmPath = some npm) :
    ∃ rest, (setupMain w dep base).2 = (downloadPhase w dep base).2.1 ++ rest
      ∧ ∀ u dst ar, Action.download u dst ar ∉ rest := by
  simp only [setupMain, hnode, hnpm]
  cases hce : (downloadPhase w dep base).1.pathExists (downloadPhase w dep base).2.2.1 with
  | false =>
    refine ⟨[], by simp [hce], by simp⟩
  | true =>
    rcases hIL : installLoop w (downloadPhase w dep base).2.2.1 dep.npmInstallDirs
        (downloadPhase w dep base).1 with ⟨r2, acts2⟩
    have hacts2 : ∀ u dst ar, Action.download u dst ar ∉ acts2 := by
      intro u dst ar hmem
      have := installLoop_actions w (downloadPhase w dep base).2.2.1 dep.npmInstallDirs
        (downloadPhase w dep base).1 (Action.download u dst ar) (by rw [hIL]; exact hmem)
      obtain ⟨p, hp⟩ := this
      cases hp
    cases r2 with
    | error e => exact ⟨acts2, by simp [hce, hIL], hacts2⟩
    | ok fs2 =>
      rcases hCP : compilePhase w dep (downloadPhase w dep base).2.2.1
          (downloadPhase w dep base).2.2.2 fs2 with ⟨r3, acts3⟩
      have hacts3 : ∀ u dst ar, Action.download u dst ar ∉ acts3 := by
        intro u dst ar hmem
        have := compilePhase_actions w dep (downloadPhase w dep base).2.2.1
          (downloadPhase w dep base).2.2.2 fs2 (Action.download u dst ar)
          (by rw [hCP]; exact hmem)
        obtain ⟨c, p, hp⟩ := this
        cases hp
      cases r3 with
      | error e =>
        refine ⟨acts2 ++ acts3, by simp [hce, hIL, hCP], ?_⟩
        intro u dst ar hmem
        rcases List.mem_append.mp hmem with hm | hm
        · exact hacts2 u dst ar hm
        · exact hacts3 u dst ar hm
      | ok fs3 =>
        refine ⟨acts2 ++ acts3, by simp [hce, hIL, hCP], ?_⟩
        intro u dst ar hmem
        rcases List.mem_append.mp hmem with hm | hm
        · exact hacts2 u dst ar hm
        · exact hacts3 u dst ar hm

/-! ## Claims -/

/-- C2: during the handshake, an `initialize` response without a
`capabilities` field fails with the protocol-violation error; a response
with one sends exactly one `initialized` notification and opens the
readiness gate exactly once, never closing it. -/
theorem handshake_capabilities_spec (resp : InitResponse) :
    (resp.fields.contains "capabilities" = false →
      handshakeAfterInit resp = .error .protocolViolation)
    ∧ (resp.fields.contains "capabilities" = true →
      ∃ evs, handshakeAfterInit resp = .ok evs
        ∧ evs.count HsEvent.sentInitNote = 1
        ∧ evs.count HsEvent.openedReadyGate = 1
        ∧ evs.count HsEvent.closedReadyGate = 0) := by
  constructor
  · intro h
    simp only [handshakeAfterInit, h]
    rfl
  · intro h
    exact ⟨[HsEvent.sentInitNote, HsEvent.openedReadyGate],
      by simp only [handshakeAfterInit, h]; rfl, by decide, by decide, by decide⟩

/-- Witness for C2 at concrete responses: one carrying `capabilities`,
one not. -/
theorem handshake_capabilities_spec_witness :
    (∃ evs, handshakeAfterInit ⟨["capabilities", "serverInfo"]⟩ = .ok evs
      ∧ evs.count HsEvent.sentInitNote = 1
      ∧ evs.count HsEvent.openedReadyGate = 1
      ∧ evs.count HsEvent.closedReadyGate = 0)
    ∧ handshakeAfterInit ⟨["serverInfo"]⟩ = .error .protocolViolation :=
  ⟨(handshake_capabilities_spec ⟨["capabilities", "serverInfo"]⟩).2 (by decide),
   (handshake_capabilities_spec ⟨["serverInfo"]⟩).1 (by decide)⟩

/-- C3 counterexample: a notification carrying 0 diagnostics logs
nothing at all — in particular no count line for the URI — because the
handler is guarded by `if diagnostics:`. -/
theorem publish_diagnostics_zero_cex :
    publish_diagnostics "file:///a.sol" [] = []
    ∧ LogEntry.countLine "file:///a.sol" 0 ∉ publish_diagnostics "file:///a.sol" [] := by
  decide

/-- C3 (amended): for every notification carrying at least one
diagnostic, the handler logs the count line for the URI followed by the
renderings of exactly the first `min n 5` diagnostics; each rendering
carries the start line and a severity name drawn from the
Error/Warning/Info/Hint table at the clamped index `min severity 3`. -/
theorem publish_diagnostics_spec (uri : String) (diagnostics : List Diag)
    (h : diagnostics ≠ []) :
    publish_diagnostics uri diagnostics =
      LogEntry.countLine uri diagnostics.length ::
        (diagnostics.take 5).map renderDiag
    ∧ ((diagnostics.take 5).map renderDiag).length = min diagnostics.length 5
    ∧ ∀ d ∈ diagnostics,
        renderDiag d =
          LogEntry.detailLine
            (match d.line with | some n => toString n | none => "?")
            (severityNames.getD (min (d.severity.getD 1) 3) "")
            (d.message.getD "Unknown diagnostic")
        ∧ severityNames.getD (min (d.severity.getD 1) 3) "" ∈ severityNames := by
  have hne : diagnostics.isEmpty = false := by
    cases diagnostics with
    | nil => exact absurd rfl h
    | cons a l => rfl
  refine ⟨by simp [publish_diagnostics, hne], ?_, ?_⟩
  · simp [Nat.min_comm]
  · intro d _
    exact ⟨rfl, severityNames_getD_mem _⟩

/-- Witness for C3 at a notification carrying 7 diagnostics: the count
line says 7 and exactly the first 5 renderings follow. -/
theorem publish_diagnostics_spec_witness :
    sevenDiags ≠ []
    ∧ (publish_diagnostics "file:///a.sol" sevenDiags =
        LogEntry.countLine "file:///a.sol" sevenDiags.length ::
          (sevenDiags.take 5).map renderDiag
      ∧ ((sevenDiags.take 5).map renderDiag).length = min sevenDiags.length 5
      ∧ ∀ d ∈ sevenDiags,
          renderDiag d =
            LogEntry.detailLine
              (match d.line with | some n => toString n | none => "?")
              (severityNames.getD (min (d.severity.getD 1) 3) "")
              (d.message.getD "Unknown diagnostic")
          ∧ severityNames.getD (min (d.severity.getD 1) 3) "" ∈ severityNames)
    ∧ sevenDiags.length = 7
    ∧ ((sevenDiags.take 5).map renderDiag).length = 5 :=
  ⟨by decide, publish_diagnostics_spec "file:///a.sol" sevenDiags (by decide),
   by decide, by decide⟩

/-- C4: the shutdown request is raced against the 5-time-unit deadline;
a timeout is logged as a warning and never propagated as a failure; a
completion within the deadline warns nothing; and `server.stop` runs on
every path of the teardown block. -/
theorem teardown_spec (b : ShutdownBehavior) :
    shutdownTimeout = 5
    ∧ (teardown b).stopRan = true
    ∧ (waitForShutdown b = .timedOut →
        (teardown b).warnedTimeout = true ∧ (teardown b).propagated = none)
    ∧ (waitForShutdown b = .ok →
        (teardown b).warnedTimeout = false ∧ (teardown b).propagated = none)
    ∧ (∀ t, b = .completesWithin t → (waitForShutdown b = .ok ↔ t ≤ shutdownTimeout))
    ∧ (b = .hangs → waitForShutdown b = .timedOut) := by
  refine ⟨rfl, ?_, ?_, ?_, ?_, ?_⟩ <;>
    cases b with
    | completesWithin t =>
      by_cases h : t ≤ shutdownTimeout <;>
        simp [teardown, waitForShutdown, h] <;> omega
    | hangs => simp [teardown, waitForShutdown]
    | raises e => simp [teardown, waitForShutdown]

/-- Witness for C4 at a server that never answers `shutdown`: the wait
times out, the warning is logged, nothing propagates, and the stop step
runs regardless. -/
theorem teardown_spec_witness :
    waitForShutdown .hangs = .timedOut
    ∧ ((teardown .hangs).warnedTimeout = true ∧ (teardown .hangs).propagated = none)
    ∧ (teardown .hangs).stopRan = true :=
  ⟨by decide, (teardown_spec .hangs).2.2.1 (by decide), (teardown_spec .hangs).2.1⟩

/-- C5: platform resolution over the loaded catalog.  For a platform id
appearing among the descriptors, it returns the (first) descriptor
whose `platformId` matches; for an absent id it fails with the
unsupported-platform error.  `resolveDependency` is a pure function of
the catalog and the id: it records no `Action` and reads no state. -/
theorem resolveDependency_spec (catalog : List Descriptor) (pid : String) :
    (pid ∈ catalog.map (·.platformId) →
      ∃ dep, resolveDependency catalog pid = .ok dep
        ∧ dep.platformId = pid ∧ dep ∈ catalog
        ∧ catalog.find? (fun d => d.platformId == pid) = some dep)
    ∧ (pid ∉ catalog.map (·.platformId) →
      resolveDependency catalog pid = .error (.unsupportedPlatform pid)) := by
  constructor
  · intro h
    obtain ⟨d0, hd0, hpid⟩ : ∃ d ∈ catalog, d.platformId = pid := by
      simpa using h
    have hs : (catalog.find? (fun d => d.platformId == pid)).isSome := by
      rw [List.find?_isSome]
      exact ⟨d0, hd0, by simp [hpid]⟩
    obtain ⟨dep, hdep⟩ := Option.isSome_iff_exists.mp hs
    refine ⟨dep, ?_, ?_, List.mem_of_find?_eq_some hdep, hdep⟩
    · unfold resolveDependency
      rw [if_pos h, hdep]
    · simpa using List.find?_some hdep
  · intro h
    unfold resolveDependency
    rw [if_neg h]

/-- Witness for C5 on a two-descriptor catalog: a present id resolves
and an absent one fails. -/
theorem resolveDependency_spec_witness :
    (∃ dep, resolveDependency catalogTwo "win32-x64" = .ok dep
      ∧ dep.platformId = "win32-x64" ∧ dep ∈ catalogTwo
      ∧ catalogTwo.find? (fun d => d.platformId == "win32-x64") = some dep)
    ∧ resolveDependency catalogTwo "darwin-arm64" =
        .error (.unsupportedPlatform "darwin-arm64") :=
  ⟨(resolveDependency_spec catalogTwo "win32-x64").1 (by decide),
   (resolveDependency_spec catalogTwo "darwin-arm64").2 (by decide)⟩

/-- C10: `from_dict` accepts `code_language` as a string in any letter
case, converting through lowercasing and the `Language` enum; an
unsupported string raises the value error; a value that is neither a
string nor a `Language` raises the type error; a `Language` value is
kept; keys that are not constructor parameters are ignored; and any
successfully returned config carries a `Language` obtained from the
input by one of the two accepted routes. -/
theorem from_dict_spec (env : Env) :
    (∀ s l, env.get? "code_language" = some (.str s) →
      Language.fromValue? (pyLower s) = some l →
      ∃ cfg, MultilspyConfig.from_dict env = .ok cfg ∧ cfg.code_language = l)
    ∧ (∀ s, env.get? "code_language" = some (.str s) →
      Language.fromValue? (pyLower s) = none →
      MultilspyConfig.from_dict env = .error (.valueError s))
    ∧ (∀ v, env.get? "code_language" = some v →
      (∀ s, v ≠ .str s) → (∀ l, v ≠ .lang l) →
      MultilspyConfig.from_dict env = .error (.typeError v.typeName))
    ∧ (∀ l, env.get? "code_language" = some (.lang l) →
      ∃ cfg, MultilspyConfig.from_dict env = .ok cfg ∧ cfg.code_language = l)
    ∧ (∀ k v, k ∉ ["code_language", "trace_lsp_communication",
        "start_independent_lsp_process"] →
      MultilspyConfig.from_dict ⟨(k, v) :: env.entries⟩ =
        MultilspyConfig.from_dict env)
    ∧ (∀ cfg, MultilspyConfig.from_dict env = .ok cfg →
      env.get? "code_language" = some (.lang cfg.code_language)
      ∨ ∃ s, env.get? "code_language" = some (.str s)
          ∧ Language.fromValue? (pyLower s) = some cfg.code_language) := by
  refine ⟨?_, ?_, ?_, ?_, ?_, ?_⟩
  · intro s l hget hlang
    refine ⟨{ code_language := l
            , trace_lsp_communication :=
                (env.get? "trace_lsp_communication").getD (.boolV false)
            , start_independent_lsp_process :=
                (env.get? "start_independent_lsp_process").getD (.boolV true) },
      ?_, rfl⟩
    simp [MultilspyConfig.from_dict, hget, hlang]
  · intro s hget hlang
    simp [MultilspyConfig.from_dict, hget, hlang]
  · intro v hget hs hl
    cases v with
    | str s => exact absurd rfl (hs s)
    | lang l => exact absurd rfl (hl l)
    | boolV b => simp [MultilspyConfig.from_dict, hget, Value.typeName]
    | intV n => simp [MultilspyConfig.from_dict, hget, Value.typeName]
  · intro l hget
    refine ⟨{ code_language := l
            , trace_lsp_communication :=
                (env.get? "trace_lsp_communication").getD (.boolV false)
            , start_independent_lsp_process :=
                (env.get? "start_independent_lsp_process").getD (.boolV true) },
      ?_, rfl⟩
    simp [MultilspyConfig.from_dict, hget]
  · intro k v hk
    simp only [List.mem_cons, List.mem_singleton, not_or] at hk
    obtain ⟨h1, h2, h3, -⟩ := hk
    simp only [MultilspyConfig.from_dict]
    rw [Env.get?_cons_ne k "code_language" v env.entries h1,
        Env.get?_cons_ne k "trace_lsp_communication" v env.entries h2,
        Env.get?_cons_ne k "start_independent_lsp_process" v env.entries h3]
  · intro cfg hok
    rcases hget : env.get? "code_language" with _ | v
    · simp [MultilspyConfig.from_dict, hget] at hok
    · cases v with
      | str s =>
        rcases hlang : Language.fromValue? (pyLower s) with _ | l
        · simp [MultilspyConfig.from_dict, hget, hlang] at hok
        · right
          have heq : MultilspyConfig.from_dict env =
              .ok { code_language := l
                  , trace_lsp_communication :=
                      (env.get? "trace_lsp_communication").getD (.boolV false)
                  , start_independent_lsp_process :=
                      (env.get? "start_independent_lsp_process").getD (.boolV true) } := by
            simp [MultilspyConfig.from_dict, hget, hlang]
          rw [heq] at hok
          injection hok with hcfg
          exact ⟨s, rfl, by rw [← hcfg]; exact hlang⟩
      | lang l =>
        left
        have heq : MultilspyConfig.from_dict env =
            .ok { code_language := l
                , trace_lsp_communication :=
                    (env.get? "trace_lsp_communication").getD (.boolV false)
                , start_independent_lsp_process :=
                    (env.get? "start_independent_lsp_process").getD (.boolV true) } := by
          simp [MultilspyConfig.from_dict, hget]
        rw [heq] at hok
        injection hok with hcfg
        rw [← hcfg]
      | boolV b => simp [MultilspyConfig.from_dict, hget] at hok
      | intV n => simp [MultilspyConfig.from_dict, hget] at hok

/-- Witness for C10: an upper-case language string with an extra key is
accepted, an unsupported string and a non-string value fail. -/
theorem from_dict_spec_witness :
    (∃ cfg, MultilspyConfig.from_dict envMixed = .ok cfg
      ∧ cfg.code_language = Language.java)
    ∧ MultilspyConfig.from_dict ⟨[("code_language", .str "cobol")]⟩ =
        .error (.valueError "cobol")
    ∧ MultilspyConfig.from_dict ⟨[("code_language", .intV 3)]⟩ =
        .error (.typeError "int") :=
  ⟨(from_dict_spec envMixed).1 "JAVA" Language.java (by decide) (by decide),
   (from_dict_spec ⟨[("code_language", .str "cobol")]⟩).2.1 "cobol"
     (by decide) (by decide),
   (from_dict_spec ⟨[("code_language", .intV 3)]⟩).2.2.1 (.intV 3) (by decide)
     (fun s h => Value.noConfusion h) (fun l h => Value.noConfusion h)⟩

/-- C1 counterexample: the bootstrap does not return before the
npm-install loop when the resolved server script already exists.  On a
filesystem where the script exists under the primary extraction path but
`pkg/node_modules` is absent, an `npm install` process is spawned — a
later step executes even though the script was already installed. -/
theorem setup_idempotent_cex :
    fsScriptNoModules.pathExists
        (resolve_paths "B" depPrimary fsScriptNoModules).2 = true
    ∧ (setupMain (mkWorld fsScriptNoModules) depPrimary "B").2 =
        [Action.npmInstall "B/ext/pkg"]
    ∧ (setupMain (mkWorld fsScriptNoModules) depPrimary "B").2 ≠ [] := by
  decide

/-- C1 (amended): on an already-complete install tree — the resolved
server script and its extraction directory exist and every package
install directory exists with a non-empty `node_modules` — the bootstrap
performs zero external actions (no download, no package install, no
compile) and returns the launch spec built from the resolved script.
Since it then touches no state, a second invocation returns the
identical launch spec and again spawns nothing. -/
theorem setup_idempotent_complete (w : World) (dep : Descriptor) (base node npm : String)
    (hnode : w.nodePath = some node) (hnpm : w.npmPath = some npm)
    (hsp : w.fs0.pathExists (resolve_paths base dep w.fs0).2 = true)
    (hep : w.fs0.pathExists (resolve_paths base dep w.fs0).1 = true)
    (hdirs : ∀ d ∈ dep.npmInstallDirs,
      w.fs0.isDir (joinPath (resolve_paths base dep w.fs0).1 d) = true
      ∧ w.fs0.pathExists
          (joinPath (joinPath (resolve_paths base dep w.fs0).1 d) "node_modules") = true
      ∧ w.fs0.listNonEmpty
          (joinPath (joinPath (resolve_paths base dep w.fs0).1 d) "node_modules") = true) :
    setupMain w dep base =
      (.ok ("\"" ++ node ++ "\"" ++ " " ++ "\"" ++
        (resolve_paths base dep w.fs0).2 ++ "\"" ++ " --stdio"), []) :=
  setupMain_complete w dep base node npm
    (resolve_paths base dep w.fs0).1 (resolve_paths base dep w.fs0).2
    hnode hnpm rfl hsp hep hdirs

/-- Witness for C1 on a concrete complete tree: the hypotheses hold and
the run returns the launch spec with an empty action list. -/
theorem setup_idempotent_complete_witness :
    (mkWorld fsComplete).fs0.pathExists
        (resolve_paths "B" depPrimary (mkWorld fsComplete).fs0).2 = true
    ∧ (mkWorld fsComplete).fs0.pathExists
        (resolve_paths "B" depPrimary (mkWorld fsComplete).fs0).1 = true
    ∧ setupMain (mkWorld fsComplete) depPrimary "B" =
        (.ok ("\"" ++ "node" ++ "\"" ++ " " ++ "\"" ++
          (resolve_paths "B" depPrimary (mkWorld fsComplete).fs0).2 ++ "\"" ++
          " --stdio"), []) :=
  ⟨by decide, by decide,
   setup_idempotent_complete (mkWorld fsComplete) depPrimary "B" "node" "npm"
     rfl rfl (by decide) (by decide) (by decide)⟩

/-- C6 counterexample: with the script present only under the legacy
path and the legacy `pkg/node_modules` absent, the bootstrap does pick
the legacy path and downloads nothing, but it still runs an `npm
install` — the claim that it returns the legacy spec "without
installing" fails. -/
theorem legacy_no_install_cex :
    resolve_paths "B" depLegacy fsLegacyNoModules =
      ("B/legacy", "B/legacy/out/server.js")
    ∧ fsLegacyNoModules.pathExists (scriptAt "B" depLegacy "ext") = false
    ∧ (setupMain (mkWorld fsLegacyNoModules) depLegacy "B").2 =
        [Action.npmInstall "B/legacy/pkg"] := by
  decide

/-- C6 (amended): candidate extraction paths are tried in the order
`[relativeExtractionPath, *legacyExtractionPaths]` and the first
candidate whose resolved script exists is chosen; for a descriptor whose
script exists only under a legacy candidate (all earlier candidates
missing their script), and whose package install directories under that
legacy path exist with a non-empty `node_modules`, the bootstrap returns
that legacy path's launch spec with zero external actions — no download
and no install. -/
theorem legacy_first_hit_spec (w : World) (dep : Descriptor) (base node npm : String)
    (i : Nat) (rel : String)
    (hnode : w.nodePath = some node) (hnpm : w.npmPath = some npm)
    (hget : (candidatePaths dep)[i]? = some rel)
    (hhit : w.fs0.pathExists (scriptAt base dep rel) = true)
    (hbefore : ∀ j, j < i → ∀ r, (candidatePaths dep)[j]? = some r →
        w.fs0.pathExists (scriptAt base dep r) = false)
    (hep : w.fs0.pathExists (joinPath base rel) = true)
    (hdirs : ∀ d ∈ dep.npmInstallDirs,
      w.fs0.isDir (joinPath (joinPath base rel) d) = true
      ∧ w.fs0.pathExists
          (joinPath (joinPath (joinPath base rel) d) "node_modules") = true
      ∧ w.fs0.listNonEmpty
          (joinPath (joinPath (joinPath base rel) d) "node_modules") = true) :
    resolve_paths base dep w.fs0 = (joinPath base rel, scriptAt base dep rel)
    ∧ setupMain w dep base =
      (.ok ("\"" ++ node ++ "\"" ++ " " ++ "\"" ++
        scriptAt base dep rel ++ "\"" ++ " --stdio"), []) := by
  have hres := resolve_paths_first_hit base dep w.fs0 i rel hget hhit hbefore
  exact ⟨hres,
    setupMain_complete w dep base node npm (joinPath base rel)
      (scriptAt base dep rel) hnode hnpm hres hhit hep hdirs⟩

/-- Witness for C6 on a concrete legacy-only complete tree (the legacy
candidate sits at index 1, the primary candidate at index 0 has no
script). -/
theorem legacy_first_hit_spec_witness :
    (candidatePaths depLegacy)[1]? = some "legacy"
    ∧ (mkWorld fsLegacyComplete).fs0.pathExists
        (scriptAt "B" depLegacy "legacy") = true
    ∧ (resolve_paths "B" depLegacy (mkWorld fsLegacyComplete).fs0 =
        (joinPath "B" "legacy", scriptAt "B" depLegacy "legacy")
      ∧ setupMain (mkWorld fsLegacyComplete) depLegacy "B" =
        (.ok ("\"" ++ "node" ++ "\"" ++ " " ++ "\"" ++
          scriptAt "B" depLegacy "legacy" ++ "\"" ++ " --stdio"), [])) :=
  ⟨by decide, by decide,
   legacy_first_hit_spec (mkWorld fsLegacyComplete) depLegacy "B" "node" "npm"
     1 "legacy" rfl rfl (by decide) (by decide)
     (by
       intro j hj r hr
       interval_cases j
       · simp [candidatePaths, depLegacy] at hr
         subst hr
         decide)
     (by decide) (by decide)⟩

/-- C7: the archive at the descriptor's url is downloaded and extracted
into the cache directory if and only if no candidate's server script
exists and the primary extraction directory is absent (when the primary
directory exists but the script is missing, no download occurs); and if
after the download step the chosen extraction directory still does not
exist, the bootstrap fails with the missing-extraction error, having
performed only the download step's actions. -/
theorem download_iff_spec (w : World) (dep : Descriptor) (base node npm : String)
    (hnode : w.nodePath = some node) (hnpm : w.npmPath = some npm) :
    (Action.download dep.url base dep.archiveType ∈ (setupMain w dep base).2 ↔
      ((∀ rel ∈ candidatePaths dep,
          w.fs0.pathExists (scriptAt base dep rel) = false)
        ∧ w.fs0.pathExists (joinPath base dep.relative_extraction_path) = false))
    ∧ ((downloadPhase w dep base).1.pathExists (downloadPhase w dep base).2.2.1 = false →
      setupMain w dep base =
        (.error (.missingExtraction (downloadPhase w dep base).2.2.1),
          (downloadPhase w dep base).2.1)) := by
  obtain ⟨rest, hsplit, hnodl⟩ := setupMain_actions_split w dep base node npm hnode hnpm
  have hchars := downloadPhase_chars w dep base
  constructor
  · rw [hsplit, List.mem_append]
    constructor
    · rintro (hin | hin)
      · rw [hchars] at hin
        cases h1 : w.fs0.pathExists (resolve_paths base dep w.fs0).2 with
        | true => simp [h1] at hin
        | false =>
          cases h2 : w.fs0.pathExists (joinPath base dep.relative_extraction_path) with
          | true => simp [h1, h2] at hin
          | false =>
            refine ⟨?_, rfl⟩
            intro rel hmem
            cases hrel : w.fs0.pathExists (scriptAt base dep rel) with
            | false => rfl
            | true =>
              have := (resolve_paths_script_exists base dep w.fs0).mpr
                ⟨rel, hmem, hrel⟩
              rw [h1] at this
              cases this
      · exact absurd hin (hnodl _ _ _)
    · rintro ⟨hall, h2⟩
      have h1 : w.fs0.pathExists (resolve_paths base dep w.fs0).2 = false := by
        cases h1 : w.fs0.pathExists (resolve_paths base dep w.fs0).2 with
        | false => rfl
        | true =>
          obtain ⟨rel, hmem, hrel⟩ := (resolve_paths_script_exists base dep w.fs0).mp h1
          rw [hall rel hmem] at hrel
          cases hrel
      left
      rw [hchars]
      simp [h1, h2]
  · intro hmiss
    simp [setupMain, hnode, hnpm, hmiss]

/-- Witness for C7 on a cold cache where the download oracle does not
populate the filesystem: the download-iff instance and the
missing-extraction failure both hold concretely. -/
theorem download_iff_spec_witness :
    (Action.download depPrimary.url "B" depPrimary.archiveType ∈
        (setupMain (mkWorld fsCold) depPrimary "B").2 ↔
      ((∀ rel ∈ candidatePaths depPrimary,
          (mkWorld fsCold).fs0.pathExists (scriptAt "B" depPrimary rel) = false)
        ∧ (mkWorld fsCold).fs0.pathExists
            (joinPath "B" depPrimary.relative_extraction_path) = false))
    ∧ ((downloadPhase (mkWorld fsCold) depPrimary "B").1.pathExists
          (downloadPhase (mkWorld fsCold) depPrimary "B").2.2.1 = false →
      setupMain (mkWorld fsCold) depPrimary "B" =
        (.error (.missingExtraction
            (downloadPhase (mkWorld fsCold) depPrimary "B").2.2.1),
          (downloadPhase (mkWorld fsCold) depPrimary "B").2.1)) :=
  download_iff_spec (mkWorld fsCold) depPrimary "B" "node" "npm" rfl rfl

/-- C8: one step of the npm-install loop over a directory listed in
`npmInstallDirs`, resolved against the chosen extraction path: a missing
directory fails with the missing-install-dir error before any spawn; a
directory whose `node_modules` exists and is non-empty is skipped
entirely (no spawn, same state); a directory whose `node_modules` is
absent or empty spawns the install, which on failure aborts the loop
with the install-failed error carrying the directory. -/
theorem installLoop_step_spec (w : World) (ep d : String) (rest : List String) (fs : FS) :
    (fs.isDir (joinPath ep d) = false →
      installLoop w ep (d :: rest) fs =
        (.error (.missingInstallDir (joinPath ep d)), []))
    ∧ (fs.isDir (joinPath ep d) = true →
      fs.pathExists (joinPath (joinPath ep d) "node_modules") = true →
      fs.listNonEmpty (joinPath (joinPath ep d) "node_modules") = true →
      installLoop w ep (d :: rest) fs = installLoop w ep rest fs)
    ∧ (fs.isDir (joinPath ep d) = true →
      (fs.pathExists (joinPath (joinPath ep d) "node_modules") = false
        ∨ fs.listNonEmpty (joinPath (joinPath ep d) "node_modules") = false) →
      (w.installOk (joinPath ep d) = true →
        installLoop w ep (d :: rest) fs =
          ((installLoop w ep rest (w.afterInstall (joinPath ep d) fs)).1,
            Action.npmInstall (joinPath ep d) ::
              (installLoop w ep rest (w.afterInstall (joinPath ep d) fs)).2))
      ∧ (w.installOk (joinPath ep d) = false →
        installLoop w ep (d :: rest) fs =
          (.error (.installFailed (joinPath ep d)),
            [Action.npmInstall (joinPath ep d)]))) := by
  refine ⟨?_, ?_, ?_⟩
  · intro h1
    simp [installLoop, h1]
  · intro h1 h2 h3
    simp [installLoop, h1, h2, h3]
  · intro h1 h2
    constructor
    · intro h4
      rcases h2 with h2 | h2 <;> simp [installLoop, h1, h2, h4]
    · intro h4
      rcases h2 with h2 | h2 <;> simp [installLoop, h1, h2, h4]

/-- Witness for C8: a missing install directory fails, and a directory
with an empty `node_modules` under a failing npm aborts with the
install-failed error carrying the directory. -/
theorem installLoop_step_spec_witness :
    fsCold.isDir (joinPath "B/ext" "pkg") = false
    ∧ installLoop (mkWorld fsCold) "B/ext" ["pkg"] fsCold =
        (.error (.missingInstallDir (joinPath "B/ext" "pkg")), []) :=
  ⟨by decide,
   (installLoop_step_spec (mkWorld fsCold) "B/ext" "pkg" [] fsCold).1 (by decide)⟩

/-- C9: after the install step, a still-missing script with a set (and
non-empty) `compileCommand` runs it in `compileWorkingDirectory`
resolved against the extraction path — a missing working directory
fails with the missing-compile-dir error, a non-zero exit with the
compile-failed error; the final check fails with the
entry-point-not-found error when the script still does not exist, and
otherwise the returned launch specification is the quoted interpreter
path, the quoted resolved script path and the fixed `--stdio` flag —
every successful run of the pipeline returns a string of exactly that
shape. -/
theorem compile_and_final_spec (w : World) (dep : Descriptor) (ep sp node : String)
    (fs : FS) :
    (fs.pathExists sp = true → compilePhase w dep ep sp fs = (.ok fs, []))
    ∧ (∀ cmd, fs.pathExists sp = false → dep.compileCommand = some cmd → cmd ≠ "" →
      (fs.isDir (joinPath ep dep.compileWorkingDirectory) = false →
        compilePhase w dep ep sp fs =
          (.error (.missingCompileDir (joinPath ep dep.compileWorkingDirectory)), []))
      ∧ (fs.isDir (joinPath ep dep.compileWorkingDirectory) = true →
        (w.compileOk = true →
          compilePhase w dep ep sp fs =
            (.ok (w.afterCompile fs),
              [Action.compile cmd (joinPath ep dep.compileWorkingDirectory)]))
        ∧ (w.compileOk = false →
          compilePhase w dep ep sp fs =
            (.error (.compileFailed (joinPath ep dep.compileWorkingDirectory)),
              [Action.compile cmd (joinPath ep dep.compileWorkingDirectory)]))))
    ∧ (fs.pathExists sp = false →
      finalizeLaunch node sp fs = .error (.entryPointNotFound sp))
    ∧ (fs.pathExists sp = true →
      finalizeLaunch node sp fs =
        .ok ("\"" ++ node ++ "\"" ++ " " ++ "\"" ++ sp ++ "\"" ++ " --stdio"))
    ∧ (∀ w2 dep2 base2 node2 npm2 s, World.nodePath w2 = some node2 →
        World.npmPath w2 = some npm2 → (setupMain w2 dep2 base2).1 = .ok s →
        s = "\"" ++ node2 ++ "\"" ++ " " ++ "\"" ++
          (downloadPhase w2 dep2 base2).2.2.2 ++ "\"" ++ " --stdio") := by
  refine ⟨?_, ?_, ?_, ?_, ?_⟩
  · intro h1
    simp [compilePhase, h1]
  · intro cmd h1 hc he
    constructor
    · intro h2
      simp [compilePhase, h1, hc, he, h2]
    · intro h2
      constructor
      · intro h3
        simp [compilePhase, h1, hc, he, h2, h3]
      · intro h3
        simp [compilePhase, h1, hc, he, h2, h3]
  · intro h1
    simp [finalizeLaunch, h1]
  · intro h1
    simp [finalizeLaunch, h1]
  · intro w2 dep2 base2 node2 npm2 s h1 h2 h3
    simp only [setupMain, h1, h2] at h3
    cases hce : (downloadPhase w2 dep2 base2).1.pathExists
        (downloadPhase w2 dep2 base2).2.2.1 with
    | false => simp [hce] at h3
    | true =>
      rcases hIL : installLoop w2 (downloadPhase w2 dep2 base2).2.2.1
          dep2.npmInstallDirs (downloadPhase w2 dep2 base2).1 with ⟨r2, acts2⟩
      cases r2 with
      | error e => simp [hce, hIL] at h3
      | ok fs2 =>
        rcases hCP : compilePhase w2 dep2 (downloadPhase w2 dep2 base2).2.2.1
            (downloadPhase w2 dep2 base2).2.2.2 fs2 with ⟨r3, acts3⟩
        cases r3 with
        | error e => simp [hce, hIL, hCP] at h3
        | ok fs3 =>
          simp only [hce, hIL, hCP, if_true] at h3
          cases hfin : fs3.pathExists (downloadPhase w2 dep2 base2).2.2.2 with
          | false => simp [finalizeLaunch, hfin] at h3
          | true =>
            simp [finalizeLaunch, hfin] at h3
            exact h3.symm

/-- Witness for C9: on a cold filesystem with a compile command set, the
compile step fails with the missing-compile-dir error, and the final
check alone fails with the entry-point-not-found error. -/
theorem compile_and_final_spec_witness :
    fsCold.pathExists "B/ext/out/server.js" = false
    ∧ depCompile.compileCommand = some "npm run build"
    ∧ compilePhase (mkWorld fsCold) depCompile "B/ext" "B/ext/out/server.js" fsCold =
        (.error (.missingCompileDir
          (joinPath "B/ext" depCompile.compileWorkingDirectory)), [])
    ∧ finalizeLaunch "node" "B/ext/out/server.js" fsCold =
        .error (.entryPointNotFound "B/ext/out/server.js") :=
  ⟨by decide, by decide,
   ((compile_and_final_spec (mkWorld fsCold) depCompile "B/ext" "B/ext/out/server.js"
       "node" fsCold).2.1 "npm run build" (by decide) (by decide)
       (by decide)).1 (by decide),
   (compile_and_final_spec (mkWorld fsCold) depCompile "B/ext" "B/ext/out/server.js"
     "node" fsCold).2.2.1 (by decide)⟩

end Multilspy
